import Mathlib

/-!
Shallow embedding of the p2p supervisor (src/p2p/src/supervisor.rs) of the
tendermint-rs repository: the protocol state machine `Protocol::transition`
together with models of the worker subroutines (accept, stop, upgrade) that
interact with the shared connection and peer registries.

Node ids, message payloads and connect infos are opaque, equality-comparable
values; they are modelled as natural numbers.  Error reports are modelled as
strings.  Rust `todo!()` branches are modelled as `none` (the operation is
undefined there: the thread panics), so every partial operation returns an
`Option`.
-/

namespace P2P

abbrev NodeId := Nat

abbrev MsgSend := Nat

abbrev MsgReceive := Nat

abbrev ConnectInfo := Nat

abbrev Report := String

/-- `Direction` from supervisor.rs lines 18-24. -/
inductive Direction
  | incoming
  | outgoing
deriving DecidableEq

/-- `Command` from supervisor.rs lines 28-42. -/
inductive Command
  | accept
  | connect (info : ConnectInfo)
  | disconnect (id : NodeId)
  | msg (id : NodeId) (m : MsgSend)
deriving DecidableEq

/-- `Event` from supervisor.rs lines 45-58. -/
inductive Event
  | connected (id : NodeId) (dir : Direction)
  | disconnected (id : NodeId) (reason : Report)
  | message (id : NodeId) (m : MsgReceive)
  | upgraded (id : NodeId)
  | upgradeFailed (id : NodeId) (reason : Report)
deriving DecidableEq

/-- `Internal` from supervisor.rs lines 60-66. -/
inductive Internal
  | accept
  | connect (info : ConnectInfo)
  | sendMessage (id : NodeId) (m : MsgSend)
  | stop (id : NodeId)
  | upgrade (id : NodeId)
deriving DecidableEq

/-- `Output` from supervisor.rs lines 68-71. -/
inductive Output
  | event (e : Event)
  | internal (i : Internal)
deriving DecidableEq

/-- `Input` from supervisor.rs lines 85-94. -/
inductive Input
  | accepted (id : NodeId)
  | command (c : Command)
  | connected (id : NodeId)
  | duplicateConnRejected (id : NodeId) (closeErr : Option Report)
  | receive (id : NodeId) (m : MsgReceive)
  | stopped (id : NodeId) (report : Option Report)
  | upgraded (id : NodeId)
  | upgradeFailed (id : NodeId) (err : Report)
deriving DecidableEq

/-- `HashMap::insert`: replaces any existing binding for the key. -/
def mapInsert (k : NodeId) (v : Direction) (m : List (NodeId × Direction)) :
    List (NodeId × Direction) :=
  (k, v) :: m.filter (fun p => p.1 != k)

/-- `HashMap::remove`: drops the binding for the key. -/
def mapRemove (k : NodeId) (m : List (NodeId × Direction)) :
    List (NodeId × Direction) :=
  m.filter (fun p => p.1 != k)

/-- `HashMap::get`: looks up the binding for the key. -/
def mapFind? (k : NodeId) (m : List (NodeId × Direction)) : Option Direction :=
  (m.find? (fun p => p.1 == k)).map Prod.snd

/-- Key set of an association-list map. -/
def mapKeys (m : List (NodeId × Direction)) : List NodeId :=
  m.map Prod.fst

/-- `HashSet::insert`: adds the element if absent. -/
def setInsert (x : NodeId) (s : List NodeId) : List NodeId :=
  if x ∈ s then s else x :: s

/-- `HashSet::remove`: drops the element. -/
def setRemove (x : NodeId) (s : List NodeId) : List NodeId :=
  s.filter (fun y => y != x)

/-- `Protocol` from supervisor.rs lines 452-456: the pure FSM state owned by
the main loop. -/
structure Protocol where
  connected : List (NodeId × Direction)
  stopped : List NodeId
  upgraded : List NodeId
deriving DecidableEq

/-- The FSM state the main loop starts from (supervisor.rs lines 225-229). -/
def protoInit : Protocol := ⟨[], [], []⟩

/-- `Protocol::handle_accepted`, supervisor.rs lines 472-481. -/
def Protocol.handle_accepted (s : Protocol) (id : NodeId) : Protocol × List Output :=
  ({ s with connected := mapInsert id .incoming s.connected },
   [Output.event (Event.connected id .incoming), Output.internal (Internal.upgrade id)])

/-- `Protocol::handle_command`, supervisor.rs lines 483-495. -/
def Protocol.handle_command (s : Protocol) : Command → Protocol × List Output
  | .accept => (s, [Output.internal Internal.accept])
  | .connect info => (s, [Output.internal (Internal.connect info)])
  | .disconnect id => (s, [Output.internal (Internal.stop id)])
  | .msg peer_id m =>
    match s.upgraded.find? (fun x => x == peer_id) with
    | some pid => (s, [Output.internal (Internal.sendMessage pid m)])
    | none => (s, [])

/-- `Protocol::handle_connected`, supervisor.rs lines 497-506. -/
def Protocol.handle_connected (s : Protocol) (id : NodeId) : Protocol × List Output :=
  ({ s with connected := mapInsert id .outgoing s.connected },
   [Output.event (Event.connected id .outgoing), Output.internal (Internal.upgrade id)])

/-- `Protocol::handle_receive`, supervisor.rs lines 508-510. -/
def Protocol.handle_receive (s : Protocol) (id : NodeId) (m : MsgReceive) :
    Protocol × List Output :=
  (s, [Output.event (Event.message id m)])

/-- `Protocol::handle_stopped`, supervisor.rs lines 512-520. -/
def Protocol.handle_stopped (s : Protocol) (id : NodeId) (report : Option Report) :
    Protocol × List Output :=
  ({ s with upgraded := setRemove id s.upgraded, stopped := setInsert id s.stopped },
   [Output.event (Event.disconnected id (report.getD "successfully disconected"))])

/-- `Protocol::handle_upgraded`, supervisor.rs lines 522-526. -/
def Protocol.handle_upgraded (s : Protocol) (id : NodeId) : Protocol × List Output :=
  ({ s with upgraded := setInsert id s.upgraded },
   [Output.event (Event.upgraded id)])

/-- `Protocol::handle_upgrade_failed`, supervisor.rs lines 528-532. -/
def Protocol.handle_upgrade_failed (s : Protocol) (id : NodeId) (err : Report) :
    Protocol × List Output :=
  ({ s with connected := mapRemove id s.connected },
   [Output.event (Event.upgradeFailed id err)])

/-- `Protocol::transition`, supervisor.rs lines 459-470.  The
`DuplicateConnRejected` arm is `todo!()` in the source, i.e. it panics; that
is modelled as `none`. -/
def Protocol.transition (s : Protocol) : Input → Option (Protocol × List Output)
  | .accepted id => some (s.handle_accepted id)
  | .command c => some (s.handle_command c)
  | .connected id => some (s.handle_connected id)
  | .duplicateConnRejected _ _ => none
  | .receive id m => some (s.handle_receive id m)
  | .stopped id r => some (s.handle_stopped id r)
  | .upgraded id => some (s.handle_upgraded id)
  | .upgradeFailed id e => some (s.handle_upgrade_failed id e)

/-- Running the FSM over a list of inputs, threading the state and
concatenating the outputs; `none` as soon as one transition panics. -/
def runOutputs (s : Protocol) : List Input → Option (Protocol × List Output)
  | [] => some (s, [])
  | i :: rest =>
    (s.transition i).bind fun r =>
      (runOutputs r.1 rest).map fun r2 => (r2.1, r.2 ++ r2.2)

/-- Running the FSM over a list of inputs, keeping only the final state. -/
def runState (s : Protocol) : List Input → Option Protocol
  | [] => some s
  | i :: rest => (s.transition i).bind fun r => runState r.1 rest

/-- Lifecycle-relevant event kinds for a fixed node id. -/
inductive LifeEvent
  | conn
  | upg
  | upgFail
  | msg
  | disc
deriving DecidableEq

/-- The lifecycle kind an emitted output contributes for the node `id`
(internal outputs and events about other ids contribute nothing). -/
def Output.lifeEventFor (id : NodeId) : Output → Option LifeEvent
  | .event (.connected i _) => if i = id then some .conn else none
  | .event (.upgraded i) => if i = id then some .upg else none
  | .event (.upgradeFailed i _) => if i = id then some .upgFail else none
  | .event (.message i _) => if i = id then some .msg else none
  | .event (.disconnected i _) => if i = id then some .disc else none
  | .internal _ => none

/-- The lifecycle kinds of the events about `id` in an output list. -/
def eventKindsFor (id : NodeId) (outs : List Output) : List LifeEvent :=
  outs.filterMap (Output.lifeEventFor id)

/-- The lifecycle kind a worker-result input contributes for the node `id`
(commands never emit per-id events, and `DuplicateConnRejected` is undefined). -/
def Input.lifeEventFor (id : NodeId) : Input → Option LifeEvent
  | .accepted i => if i = id then some .conn else none
  | .connected i => if i = id then some .conn else none
  | .upgraded i => if i = id then some .upg else none
  | .upgradeFailed i _ => if i = id then some .upgFail else none
  | .receive i _ => if i = id then some .msg else none
  | .stopped i _ => if i = id then some .disc else none
  | .command _ => none
  | .duplicateConnRejected _ _ => none

/-- The lifecycle kinds of the worker-result inputs about `id` in a trace. -/
def inputKindsFor (id : NodeId) (tr : List Input) : List LifeEvent :=
  tr.filterMap (Input.lifeEventFor id)

/-- Zero or more messages followed by at most one disconnect. -/
def msgsThenDisc : List LifeEvent → Bool
  | [] => true
  | .msg :: rest => msgsThenDisc rest
  | .disc :: rest => rest.isEmpty
  | _ => false

/-- What may follow the connected event. -/
def afterConnected : List LifeEvent → Bool
  | [] => true
  | .upg :: rest => msgsThenDisc rest
  | .upgFail :: rest => msgsThenDisc rest
  | _ => false

/-- The per-id lifecycle pattern of claim C1: the kind list is an initial
segment of `conn`, then exactly one of `upg` or `upgFail`, then zero or more
`msg`, then `disc`. -/
def lifecycleOrdered : List LifeEvent → Bool
  | [] => true
  | .conn :: rest => afterConnected rest
  | _ => false

/-- Guard on a single input: an `Upgraded(id)` input is only admitted while
`id` is not already in the stopped set. -/
def upgGuard (s : Protocol) : Input → Bool
  | .upgraded id => !(decide (id ∈ s.stopped))
  | _ => true

/-- A trace is free of late upgrades when no `Upgraded(id)` input is
processed in a state where `id` is already stopped. -/
def noUpgradeOfStopped : Protocol → List Input → Bool
  | _, [] => true
  | s, i :: rest =>
    upgGuard s i &&
      (match s.transition i with
       | none => true
       | some (s', _) => noUpgradeOfStopped s' rest)

/-- One round of the stop worker `Supervisor::stop`, supervisor.rs lines
383-408, acting on the peer registry (modelled by the set of running peer
ids).  `stopErr` is the result of `peer.stop().err()` for the removed peer.
The missing-peer branch is `todo!()` in the source, i.e. the subroutine
panics; that is modelled as `none`. -/
def stopStep (stopErr : Option Report) (peers : List NodeId) (id : NodeId) :
    Option (List NodeId × Input) :=
  let peer := if peers.contains id then some id else none
  match peer with
  | some pid => some (setRemove id peers, Input.stopped pid stopErr)
  | none => none

/-- Outcome of building and running a peer from a connection: `Peer::try_from`
fails, `peer.run` fails with a report, or both succeed. -/
inductive PeerBuild
  | buildErr
  | runErr (r : Report)
  | ok
deriving DecidableEq

/-- One round of the upgrade worker `Supervisor::upgrade`, supervisor.rs lines
410-449, acting on the connection registry and the peer registry.  `build` is
the outcome of `Peer::try_from` followed by `peer.run(vec![])` for the removed
connection.  The `Peer::try_from` error branch and the occupied peer-registry
entry branch are `todo!()` in the source, i.e. the subroutine panics; both are
modelled as `none`. -/
def upgradeStep (build : PeerBuild) (connected : List (NodeId × Direction))
    (peers : List NodeId) (id : NodeId) :
    Option (List (NodeId × Direction) × List NodeId × Input) :=
  match mapFind? id connected with
  | none => some (connected, peers, Input.upgradeFailed id "connection not found")
  | some _ =>
    let connected' := mapRemove id connected
    match build with
    | .buildErr => none
    | .runErr r => some (connected', peers, Input.upgradeFailed id r)
    | .ok =>
      if peers.contains id then none
      else some (connected', setInsert id peers, Input.upgraded id)

/-- Registration step of the accept worker `Supervisor::accept`,
supervisor.rs lines 290-309: a pulled connection whose public key derives the
node id `id` is registered in the connection registry.  `closeErr` is the
result of `conn.close().err()`, consulted only in the duplicate branch. -/
def acceptRegister (connected : List (NodeId × Direction)) (id : NodeId)
    (closeErr : Option Report) : List (NodeId × Direction) × Input :=
  match mapFind? id connected with
  | none => (mapInsert id .incoming connected, Input.accepted id)
  | some _ => (connected, Input.duplicateConnRejected id closeErr)

/-- Control positions of the accept worker loop `Supervisor::accept`,
supervisor.rs lines 282-312: blocked on `accept_rx.recv()` (line 283), or
about to call `incoming.next()` (line 285). -/
inductive AcceptPhase
  | waitSignal
  | waitConn
deriving DecidableEq

/-- Observable actions of the accept worker: receiving one `Accept` signal,
and pulling one connection from the transport's incoming stream. -/
inductive AcceptAction
  | recvSignal
  | nextConn
deriving DecidableEq

/-- Control flow of the accept worker loop: a signal is consumed only while
blocked at `accept_rx.recv()`, and `incoming.next()` is called exactly once
after each consumed signal before the loop blocks on `recv` again. -/
def acceptStep : AcceptPhase → AcceptAction → Option AcceptPhase
  | .waitSignal, .recvSignal => some .waitConn
  | .waitConn, .nextConn => some .waitSignal
  | _, _ => none

/-- Runs the accept worker control flow over a list of actions. -/
def acceptRun : AcceptPhase → List AcceptAction → Option AcceptPhase
  | p, [] => some p
  | p, a :: rest =>
    match acceptStep p a with
    | none => none
    | some p' => acceptRun p' rest

theorem mem_setInsert (x y : NodeId) (s : List NodeId) :
    x ∈ setInsert y s ↔ x = y ∨ x ∈ s := by
  unfold setInsert
  by_cases h : y ∈ s
  · rw [if_pos h]
    constructor
    · exact Or.inr
    · rintro (rfl | hx)
      · exact h
      · exact hx
  · rw [if_neg h]
    exact List.mem_cons

theorem mem_setRemove (x y : NodeId) (s : List NodeId) :
    x ∈ setRemove y s ↔ x ∈ s ∧ x ≠ y := by
  unfold setRemove
  simp [List.mem_filter]

theorem handle_command_msg (s : Protocol) (id : NodeId) (m : MsgSend) :
    s.handle_command (.msg id m) =
      (s, if id ∈ s.upgraded
          then [Output.internal (Internal.sendMessage id m)]
          else []) := by
  show ((match s.upgraded.find? (fun x => x == id) with
      | some pid => (s, [Output.internal (Internal.sendMessage pid m)])
      | none => (s, [])) : Protocol × List Output) = _
  cases hfind : s.upgraded.find? (fun x => x == id) with
  | none =>
    have hmem : id ∉ s.upgraded := by
      intro hmem
      have := List.find?_eq_none.mp hfind id hmem
      simp at this
    simp [hmem]
  | some pid =>
    have hp : pid = id := by
      have := List.find?_some hfind
      simpa using this
    subst hp
    have hmem : pid ∈ s.upgraded := List.mem_of_find?_eq_some hfind
    simp [hmem]

/-- Claim C2: on input `Command(Msg id m)` the FSM leaves its state unchanged
and outputs exactly `Internal::SendMessage(id, m)` when `id` is in the
upgraded set, and nothing at all otherwise; in particular no event is
emitted. -/
theorem msg_command_routing (s : Protocol) (id : NodeId) (m : MsgSend) :
    s.transition (.command (.msg id m)) =
      some (s, if id ∈ s.upgraded
               then [Output.internal (Internal.sendMessage id m)]
               else []) := by
  show some (s.handle_command (.msg id m)) = _
  rw [handle_command_msg]

/-- Claim C10: every `Command` input is read-only routing: the FSM state
after the transition is exactly the state before. -/
theorem command_transition_pure (s : Protocol) (c : Command) :
    (s.transition (.command c)).map Prod.fst = some s := by
  cases c with
  | accept => rfl
  | connect info => rfl
  | disconnect id => rfl
  | msg id m =>
    show (some (s.handle_command (.msg id m))).map Prod.fst = some s
    rw [handle_command_msg]
    rfl

/-- Claim C6 evaluation: the FSM transition on `DuplicateConnRejected` is the
`todo!()` arm of the source, hence undefined (the main loop panics) for every
state, id and close error. -/
theorem duplicateConnRejected_undefined (s : Protocol) (id : NodeId)
    (r : Option Report) :
    s.transition (.duplicateConnRejected id r) = none := rfl

/-- Claim C4 counterexample: after `Accepted(1)` then `Upgraded(1)` the id 1
is simultaneously a key of the FSM connected map and a member of the upgraded
set, so the two are not disjoint. -/
theorem connected_upgraded_not_disjoint :
    runState protoInit [Input.accepted 1, Input.upgraded 1] =
      some ⟨[(1, Direction.incoming)], [], [1]⟩ ∧
    1 ∈ mapKeys [(1, Direction.incoming)] ∧ 1 ∈ ([1] : List NodeId) := by
  decide

/-- Claim C4 amended: `Upgraded(id)` only inserts `id` into the upgraded set
and leaves the connected map untouched; `id` is removed from the connected
map only by `UpgradeFailed(id)`. -/
theorem upgraded_keeps_connected (s : Protocol) (id : NodeId) (r : Report) :
    s.transition (.upgraded id) =
      some ({ s with upgraded := setInsert id s.upgraded },
            [Output.event (Event.upgraded id)]) ∧
    s.transition (.upgradeFailed id r) =
      some ({ s with connected := mapRemove id s.connected },
            [Output.event (Event.upgradeFailed id r)]) :=
  ⟨rfl, rfl⟩

/-- Claim C3 counterexample: the input sequence `Stopped(1)` then
`Upgraded(1)` is accepted by the FSM and leaves 1 in both the upgraded set and
the stopped set. -/
theorem upgraded_stopped_not_disjoint :
    runState protoInit [Input.stopped 1 none, Input.upgraded 1] =
      some ⟨[], [1], [1]⟩ ∧
    1 ∈ ([1] : List NodeId) ∧ 1 ∈ ([1] : List NodeId) := by
  decide

/-- Claim C5 evaluation: `Disconnect(1)` always forwards `Internal::Stop(1)`
to the stop worker; the first stop round removes the running peer and reports
`Stopped(1)` (one `Disconnected` event), but the second round finds the peer
registry without the peer and is the `todo!()` arm of the source, hence
undefined (the stop worker panics) instead of handling the absence. -/
theorem second_disconnect_stop_undefined :
    Protocol.transition ⟨[], [], [1]⟩ (.command (.disconnect 1)) =
      some (⟨[], [], [1]⟩, [Output.internal (Internal.stop 1)]) ∧
    stopStep none [1] 1 = some ([], Input.stopped 1 none) ∧
    Protocol.transition ⟨[], [], [1]⟩ (.stopped 1 none) =
      some (⟨[], [1], []⟩,
            [Output.event (Event.disconnected 1 "successfully disconected")]) ∧
    stopStep none [] 1 = none := by
  constructor
  · rfl
  · exact ⟨rfl, rfl, rfl⟩

/-- Claim C7 evaluation of the upgrade worker: a missing registry entry
reports `UpgradeFailed(id, "connection not found")`; a `peer.run` failure
reports `UpgradeFailed(id, reason)`; a success inserts the peer and reports
`Upgraded(id)`; but a `Peer::try_from` failure is the `todo!()` arm of the
source, hence undefined (the upgrade worker panics) instead of reporting
`UpgradeFailed`. -/
theorem upgrade_worker_eval :
    upgradeStep .ok [] [] 1 =
      some ([], [], Input.upgradeFailed 1 "connection not found") ∧
    upgradeStep (.runErr "handshake failed") [(1, Direction.incoming)] [] 1 =
      some ([], [], Input.upgradeFailed 1 "handshake failed") ∧
    upgradeStep .ok [(1, Direction.incoming)] [] 1 =
      some ([], [1], Input.upgraded 1) ∧
    upgradeStep .buildErr [(1, Direction.incoming)] [] 1 = none := by
  exact ⟨rfl, rfl, rfl, rfl⟩

/-- Claim C8: the accept worker's registration step inserts the pulled
connection as `Incoming` and reports `Accepted(id)` when the connection
registry has no entry for `id`, and otherwise leaves the registry unchanged,
closes the new connection and reports `DuplicateConnRejected(id, closeErr)`. -/
theorem accept_register_spec (connected : List (NodeId × Direction))
    (id : NodeId) (closeErr : Option Report) :
    acceptRegister connected id closeErr =
      if mapFind? id connected = none
      then (mapInsert id .incoming connected, Input.accepted id)
      else (connected, Input.duplicateConnRejected id closeErr) := by
  unfold acceptRegister
  cases h : mapFind? id connected <;> simp [h]

theorem transition_lifeEvents (id : NodeId) (s s' : Protocol) (i : Input)
    (outs : List Output) (h : s.transition i = some (s', outs)) :
    eventKindsFor id outs = (Input.lifeEventFor id i).toList := by
  cases i with
  | accepted j =>
    have h0 : some (s.handle_accepted j) = some (s', outs) := h
    have h' : outs = [Output.event (Event.connected j .incoming),
        Output.internal (Internal.upgrade j)] :=
      (congrArg Prod.snd (Option.some.inj h0)).symm
    subst h'
    by_cases hj : j = id <;>
      simp [eventKindsFor, Output.lifeEventFor, Input.lifeEventFor, hj]
  | command c =>
    have h0 : some (s.handle_command c) = some (s', outs) := h
    have h' : outs = (s.handle_command c).2 :=
      (congrArg Prod.snd (Option.some.inj h0)).symm
    subst h'
    cases c with
    | accept => rfl
    | connect info => rfl
    | disconnect j => rfl
    | msg j m =>
      rw [handle_command_msg]
      by_cases hj : j ∈ s.upgraded <;>
        simp [hj, eventKindsFor, Output.lifeEventFor, Input.lifeEventFor]
  | connected j =>
    have h0 : some (s.handle_connected j) = some (s', outs) := h
    have h' : outs = [Output.event (Event.connected j .outgoing),
        Output.internal (Internal.upgrade j)] :=
      (congrArg Prod.snd (Option.some.inj h0)).symm
    subst h'
    by_cases hj : j = id <;>
      simp [eventKindsFor, Output.lifeEventFor, Input.lifeEventFor, hj]
  | duplicateConnRejected j r => simp [Protocol.transition] at h
  | receive j m =>
    have h0 : some (s.handle_receive j m) = some (s', outs) := h
    have h' : outs = [Output.event (Event.message j m)] :=
      (congrArg Prod.snd (Option.some.inj h0)).symm
    subst h'
    by_cases hj : j = id <;>
      simp [eventKindsFor, Output.lifeEventFor, Input.lifeEventFor, hj]
  | stopped j r =>
    have h0 : some (s.handle_stopped j r) = some (s', outs) := h
    have h' : outs = [Output.event
        (Event.disconnected j (r.getD "successfully disconected"))] :=
      (congrArg Prod.snd (Option.some.inj h0)).symm
    subst h'
    by_cases hj : j = id <;>
      simp [eventKindsFor, Output.lifeEventFor, Input.lifeEventFor, hj]
  | upgraded j =>
    have h0 : some (s.handle_upgraded j) = some (s', outs) := h
    have h' : outs = [Output.event (Event.upgraded j)] :=
      (congrArg Prod.snd (Option.some.inj h0)).symm
    subst h'
    by_cases hj : j = id <;>
      simp [eventKindsFor, Output.lifeEventFor, Input.lifeEventFor, hj]
  | upgradeFailed j e =>
    have h0 : some (s.handle_upgrade_failed j e) = some (s', outs) := h
    have h' : outs = [Output.event (Event.upgradeFailed j e)] :=
      (congrArg Prod.snd (Option.some.inj h0)).symm
    subst h'
    by_cases hj : j = id <;>
      simp [eventKindsFor, Output.lifeEventFor, Input.lifeEventFor, hj]

theorem runOutputs_lifeEvents (id : NodeId) (tr : List Input) :
    ∀ (s s' : Protocol) (outs : List Output),
      runOutputs s tr = some (s', outs) →
      eventKindsFor id outs = inputKindsFor id tr := by
  induction tr with
  | nil =>
    intro s s' outs h
    have h0 : some (s, ([] : List Output)) = some (s', outs) := h
    have h' : outs = [] := (congrArg Prod.snd (Option.some.inj h0)).symm
    subst h'
    rfl
  | cons i rest ih =>
    intro s s' outs h
    unfold runOutputs at h
    rw [Option.bind_eq_some] at h
    obtain ⟨r, ht, h⟩ := h
    obtain ⟨s1, outs1⟩ := r
    rw [Option.map_eq_some'] at h
    obtain ⟨r2, hr, h2⟩ := h
    obtain ⟨s2, outs2⟩ := r2
    have h' : outs = outs1 ++ outs2 := (congrArg Prod.snd h2).symm
    subst h'
    have e1 := transition_lifeEvents id s s1 i outs1 ht
    have e2 := ih s1 s2 outs2 hr
    unfold eventKindsFor at e1
    unfold eventKindsFor inputKindsFor at e2 ⊢
    rw [List.filterMap_append, e1, e2, List.filterMap_cons]
    cases Input.lifeEventFor id i <;> simp

/-- Claim C1 amended: for every id and every FSM run whose worker-result
inputs concerning that id arrive in lifecycle order (a connect result, then
one upgrade result, then receives, then a stop result), the emitted events
concerning that id are an initial segment of `Connected`, then exactly one of
`Upgraded` or `UpgradeFailed`, then zero or more `Message`, then
`Disconnected`.  For arbitrary input sequences the FSM does not enforce this
order. -/
theorem per_id_event_order (tr : List Input) (id : NodeId) (s' : Protocol)
    (outs : List Output) (h : runOutputs protoInit tr = some (s', outs))
    (ho : lifecycleOrdered (inputKindsFor id tr) = true) :
    lifecycleOrdered (eventKindsFor id outs) = true := by
  rw [runOutputs_lifeEvents id tr protoInit s' outs h]
  exact ho

/-- Witness for the amended claim C1 on a complete happy-path run. -/
theorem per_id_event_order_witness :
    lifecycleOrdered (eventKindsFor 1
      [Output.event (Event.connected 1 Direction.incoming),
       Output.internal (Internal.upgrade 1),
       Output.event (Event.upgraded 1),
       Output.event (Event.message 1 5),
       Output.event (Event.disconnected 1 "successfully disconected")]) = true :=
  per_id_event_order
    [Input.accepted 1, Input.upgraded 1, Input.receive 1 5, Input.stopped 1 none]
    1 ⟨[(1, Direction.incoming)], [1], []⟩
    [Output.event (Event.connected 1 Direction.incoming),
     Output.internal (Internal.upgrade 1),
     Output.event (Event.upgraded 1),
     Output.event (Event.message 1 5),
     Output.event (Event.disconnected 1 "successfully disconected")]
    (by decide) (by decide)

/-- Claim C1 counterexample: the FSM accepts the bare input sequence
`[Upgraded(1)]`, and the events it emits for id 1 are `[Upgraded(1)]`, which
is not an initial segment of the claimed pattern (no `Connected` came
first). -/
theorem per_id_event_order_counterexample :
    runOutputs protoInit [Input.upgraded 1] =
      some (⟨[], [], [1]⟩, [Output.event (Event.upgraded 1)]) ∧
    lifecycleOrdered (eventKindsFor 1 [Output.event (Event.upgraded 1)]) = false :=
  ⟨rfl, rfl⟩

theorem transition_preserves_disjoint (s : Protocol) (i : Input) (s' : Protocol)
    (outs : List Output) (ht : s.transition i = some (s', outs))
    (hg : upgGuard s i = true)
    (hd : ∀ x ∈ s.upgraded, x ∉ s.stopped) :
    ∀ x ∈ s'.upgraded, x ∉ s'.stopped := by
  cases i with
  | accepted j =>
    have h0 : some (s.handle_accepted j) = some (s', outs) := ht
    have hs : s' = { s with connected := mapInsert j .incoming s.connected } :=
      (congrArg Prod.fst (Option.some.inj h0)).symm
    subst hs
    exact hd
  | command c =>
    have h0 : some (s.handle_command c) = some (s', outs) := ht
    have hs : s' = (s.handle_command c).1 :=
      (congrArg Prod.fst (Option.some.inj h0)).symm
    subst hs
    cases c with
    | accept => exact hd
    | connect info => exact hd
    | disconnect j => exact hd
    | msg j m =>
      rw [handle_command_msg]
      exact hd
  | connected j =>
    have h0 : some (s.handle_connected j) = some (s', outs) := ht
    have hs : s' = { s with connected := mapInsert j .outgoing s.connected } :=
      (congrArg Prod.fst (Option.some.inj h0)).symm
    subst hs
    exact hd
  | duplicateConnRejected j r => simp [Protocol.transition] at ht
  | receive j m =>
    have h0 : some (s.handle_receive j m) = some (s', outs) := ht
    have hs : s' = s := (congrArg Prod.fst (Option.some.inj h0)).symm
    subst hs
    exact hd
  | stopped j r =>
    have h0 : some (s.handle_stopped j r) = some (s', outs) := ht
    have hs :
        s' = { s with upgraded := setRemove j s.upgraded, stopped := setInsert j s.stopped } :=
      (congrArg Prod.fst (Option.some.inj h0)).symm
    subst hs
    intro x hx hst
    have hx' : x ∈ setRemove j s.upgraded := hx
    have hst' : x ∈ setInsert j s.stopped := hst
    rw [mem_setRemove] at hx'
    rw [mem_setInsert] at hst'
    rcases hst' with rfl | hst2
    · exact hx'.2 rfl
    · exact hd x hx'.1 hst2
  | upgraded j =>
    have h0 : some (s.handle_upgraded j) = some (s', outs) := ht
    have hs : s' = { s with upgraded := setInsert j s.upgraded } :=
      (congrArg Prod.fst (Option.some.inj h0)).symm
    subst hs
    have hj : j ∉ s.stopped := by simpa [upgGuard] using hg
    intro x hx hst
    have hx' : x ∈ setInsert j s.upgraded := hx
    have hst' : x ∈ s.stopped := hst
    rw [mem_setInsert] at hx'
    rcases hx' with rfl | hx2
    · exact hj hst'
    · exact hd x hx2 hst'
  | upgradeFailed j e =>
    have h0 : some (s.handle_upgrade_failed j e) = some (s', outs) := ht
    have hs : s' = { s with connected := mapRemove j s.connected } :=
      (congrArg Prod.fst (Option.some.inj h0)).symm
    subst hs
    exact hd

theorem noUpgradeOfStopped_disjoint (tr : List Input) :
    ∀ (s s' : Protocol), (∀ x ∈ s.upgraded, x ∉ s.stopped) →
      noUpgradeOfStopped s tr = true → runState s tr = some s' →
      ∀ x ∈ s'.upgraded, x ∉ s'.stopped := by
  induction tr with
  | nil =>
    intro s s' hd _ hr
    have h0 : some s = some s' := hr
    have hs := Option.some.inj h0
    subst hs
    exact hd
  | cons i rest ih =>
    intro s s' hd hg hr
    unfold noUpgradeOfStopped at hg
    unfold runState at hr
    rw [Option.bind_eq_some] at hr
    obtain ⟨r, ht, hr⟩ := hr
    obtain ⟨s1, outs1⟩ := r
    rw [ht, Bool.and_eq_true] at hg
    have hg2 : noUpgradeOfStopped s1 rest = true := hg.2
    exact ih s1 s'
      (transition_preserves_disjoint s i s1 outs1 ht hg.1 hd) hg2 hr

/-- Claim C3 amended: the upgraded and stopped sets are disjoint in every FSM
state reached by a run in which no `Upgraded(id)` input is processed while
`id` is already in the stopped set.  Without that restriction the FSM does
not maintain disjointness: `handle_upgraded` inserts unconditionally. -/
theorem upgraded_stopped_disjoint (tr : List Input) (s' : Protocol)
    (hg : noUpgradeOfStopped protoInit tr = true)
    (hr : runState protoInit tr = some s') :
    ∀ x ∈ s'.upgraded, x ∉ s'.stopped :=
  noUpgradeOfStopped_disjoint tr protoInit s' (by simp [protoInit]) hg hr

/-- Witness for the amended claim C3 on an accept-upgrade run. -/
theorem upgraded_stopped_disjoint_witness :
    (1 : NodeId) ∉ (Protocol.mk [(1, Direction.incoming)] [] [1]).stopped :=
  upgraded_stopped_disjoint [Input.accepted 1, Input.upgraded 1]
    ⟨[(1, Direction.incoming)], [], [1]⟩ (by decide) (by decide) 1 (by decide)

theorem acceptRun_next_le (tr : List AcceptAction) :
    ∀ (p p' : AcceptPhase), acceptRun p tr = some p' →
      tr.count AcceptAction.nextConn ≤
        tr.count AcceptAction.recvSignal +
          (if p = AcceptPhase.waitConn then 1 else 0) := by
  induction tr with
  | nil => intro p p' _; simp
  | cons a rest ih =>
    intro p p' h
    unfold acceptRun at h
    cases p with
    | waitSignal =>
      cases a with
      | recvSignal =>
        have h' : acceptRun AcceptPhase.waitConn rest = some p' := h
        have hrest := ih AcceptPhase.waitConn p' h'
        simp [List.count_cons] at hrest ⊢
        omega
      | nextConn => exact Option.noConfusion h
    | waitConn =>
      cases a with
      | recvSignal => exact Option.noConfusion h
      | nextConn =>
        have h' : acceptRun AcceptPhase.waitSignal rest = some p' := h
        have hrest := ih AcceptPhase.waitSignal p' h'
        simp [List.count_cons] at hrest ⊢
        omega

/-- Claim C9: along any execution of the accept worker's control loop started
at its initial blocking point, the number of `incoming.next()` pulls never
exceeds the number of `Accept` signals received; in particular with no signal
the worker never pulls from the incoming stream. -/
theorem accept_pulls_bounded (tr : List AcceptAction) (p' : AcceptPhase)
    (h : acceptRun AcceptPhase.waitSignal tr = some p') :
    tr.count AcceptAction.nextConn ≤ tr.count AcceptAction.recvSignal := by
  have hb := acceptRun_next_le tr AcceptPhase.waitSignal p' h
  simpa using hb

/-- Witness for claim C9 on a one-signal, one-pull execution. -/
theorem accept_pulls_bounded_witness :
    [AcceptAction.recvSignal, AcceptAction.nextConn].count AcceptAction.nextConn ≤
      [AcceptAction.recvSignal, AcceptAction.nextConn].count AcceptAction.recvSignal :=
  accept_pulls_bounded [AcceptAction.recvSignal, AcceptAction.nextConn]
    AcceptPhase.waitSignal (by decide)

end P2P
